import Mathlib

/-!
Verification of the kevm-pyk proving driver (`kevm_pyk/__main__.py`,
`kevm_pyk/utils.py`, `kevm_pyk/gst_to_kore.py`) against its
natural-language specification.  Python dictionaries are embedded as
association lists, Python exceptions as `Except`/`Option`, `sys.exit`
as an explicit run result, and the external pyk/backend operations as
explicit oracle parameters.
-/

namespace KevmPyk

/-! ## gst_to_kore.py -/

/-- The `GST_DISCARD_KEYS` constant of `gst_to_kore.py`. -/
def GST_DISCARD_KEYS : List String :=
  ["//", "_info", "callcreates", "sealEngine", "transactionSequence",
   "chainname", "expectException", "lastblockhash"]

/-- `filter_gst_keys`: for each test of a GeneralStateTest mapping
(test name ↦ field mapping), drop the fields whose key is in
`GST_DISCARD_KEYS`.  Mappings are embedded as association lists over an
arbitrary value type (JSON values in the source). -/
def filter_gst_keys {V : Type} (gst_data : List (String × List (String × V))) :
    List (String × List (String × V)) :=
  gst_data.map fun td =>
    (td.1, td.2.filter fun kv => !(GST_DISCARD_KEYS.contains kv.1))

/-! ## utils.py: byte_offset_to_lines -/

/-- First loop of `byte_offset_to_lines`: walk the lines, consuming
`len(line) + 1` bytes from `byte_start` per line (the +1 is the
newline), incrementing `line_start`, stopping at the first line whose
length is not `< byte_start`.  Returns the remaining `byte_start` and
the final `line_start`. -/
def botlFirstLoop : List String → Int → Nat → Int × Nat
  | [], byte_start, line_start => (byte_start, line_start)
  | line :: rest, byte_start, line_start =>
    if (line.length : Int) < byte_start then
      botlFirstLoop rest (byte_start - (line.length + 1)) (line_start + 1)
    else
      (byte_start, line_start)

/-- Second loop of `byte_offset_to_lines`: starting at the suffix
`lines[line_start:]`, append lines while `byte_start + byte_width ≥ 0`,
decrementing `byte_width` by `len(line) + 1` per appended line and
incrementing `line_end`.  Returns the collected lines and the final
`line_end`. -/
def botlSecondLoop : List String → Int → Int → Nat → List String × Nat
  | [], _, _, line_end => ([], line_end)
  | line :: rest, byte_start, byte_width, line_end =>
    if byte_start + byte_width < 0 then
      ([], line_end)
    else
      let r := botlSecondLoop rest byte_start (byte_width - (line.length + 1)) (line_end + 1)
      (line :: r.1, r.2)

/-- `byte_offset_to_lines(lines, byte_start, byte_width)` from
`utils.py`, returning `(text_lines, line_start, line_end)`. -/
def byte_offset_to_lines (lines : List String) (byte_start byte_width : Int) :
    List String × Nat × Nat :=
  let fl := botlFirstLoop lines byte_start 0
  let sl := botlSecondLoop (lines.drop fl.2) fl.1 byte_width fl.2
  (sl.1, fl.2, sl.2)

theorem botlFirstLoop_le (lines : List String) (bs : Int) (ls : Nat) :
    ls ≤ (botlFirstLoop lines bs ls).2 ∧
      (botlFirstLoop lines bs ls).2 ≤ ls + lines.length := by
  induction lines generalizing bs ls with
  | nil => simp [botlFirstLoop]
  | cons line rest ih =>
    simp only [botlFirstLoop]
    by_cases h : (line.length : Int) < bs
    · simp only [if_pos h]
      have := ih (bs - (line.length + 1)) (ls + 1)
      constructor
      · omega
      · simpa [List.length_cons] using by omega
    · simp only [if_neg h, List.length_cons]
      omega

theorem botlSecondLoop_spec (lines : List String) (bs bw : Int) (le0 : Nat) :
    le0 ≤ (botlSecondLoop lines bs bw le0).2 ∧
      (botlSecondLoop lines bs bw le0).2 ≤ le0 + lines.length ∧
      (botlSecondLoop lines bs bw le0).1 =
        lines.take ((botlSecondLoop lines bs bw le0).2 - le0) := by
  induction lines generalizing bw le0 with
  | nil => simp [botlSecondLoop]
  | cons line rest ih =>
    simp only [botlSecondLoop]
    by_cases h : bs + bw < 0
    · simp [if_pos h]
    · simp only [if_neg h]
      have hr := ih (bw - (line.length + 1)) (le0 + 1)
      refine ⟨by omega, by simp only [List.length_cons]; omega, ?_⟩
      have hle : (botlSecondLoop rest bs (bw - (line.length + 1)) (le0 + 1)).2 - le0 =
          ((botlSecondLoop rest bs (bw - (line.length + 1)) (le0 + 1)).2 - (le0 + 1)) + 1 := by
        omega
      rw [hle]
      simp [List.take_succ_cons, hr.2.2]

/-! ## Symbolic states (pyk `CTerm`, embedded) -/

/-- Path-constraint predicates of a symbolic state (spec §3: "ordered
list of path-constraint predicates"). -/
inductive Pred where
  | tt : Pred
  | atom : Nat → Pred
  | neg : Pred → Pred
deriving DecidableEq, Repr

/-- A symbolic state (pyk `CTerm`): either the provably-empty `#Bottom`
state, or a configuration with an ordered list of path constraints. -/
inductive CTerm where
  | bottom : CTerm
  | config : Nat → List Pred → CTerm
deriving DecidableEq, Repr

/-- `pyk.prelude.ml.is_bottom`: the state is the `#Bottom` marker. -/
def is_bottom : CTerm → Bool
  | .bottom => true
  | .config _ _ => false

/-! ## Proofs (pyk `APRProof` / `APRBMCProof` / `EqualityProof`, embedded) -/

/-- A proof-graph node (pyk `KCFG.Node`): id plus symbolic state. -/
structure Node where
  id : Nat
  cterm : CTerm
deriving DecidableEq, Repr

/-- The proof state visible to the driver: the pending
(unexplored-frontier) nodes, the stuck nodes, the failing leaves used by
the failure reporter, the target node, and the path constraints of each
node by id. -/
structure APRProof where
  pending : List Node
  stuck : List Node
  failing : List Node
  target : Node
  path_constraints : Nat → Pred

/-- Modelled from the spec: `APRProof.passed` lives in the external pyk
library, not under this repository's sources.  Spec §4.3: the proof is
`Proven` iff no `stuck` or unexplored-frontier (pending) node remains. -/
def APRProof.passed (p : APRProof) : Bool :=
  p.stuck.isEmpty && p.pending.isEmpty

/-- The status flags of a pyk `EqualityProof` that `kevm_prove` reads. -/
structure EqualityProof where
  passed : Bool
  failed : Bool

/-- The three proof variants `kevm_prove` dispatches on. -/
inductive KProof where
  | apr : APRProof → KProof
  | aprbmc : APRProof → Nat → KProof
  | equality : EqualityProof → KProof

/-! ## utils.py: kevm_prove -/

/-- The `try:` body of `kevm_prove` (`utils.py` lines 118-146): advance
the prover (the advancing oracles stand for
`APRProver/APRBMCProver.advance_proof` and `EqualityProver.advance_proof`
of the external backend; `Except.error` is a raised exception), then
report `proof.passed`. -/
def kevm_prove_body (advance : APRProof → Except String APRProof)
    (advance_eq : EqualityProof → Except String EqualityProof) :
    KProof → Except String Bool
  | .apr p =>
    match advance p with
    | .error e => .error e
    | .ok p' => .ok p'.passed
  | .aprbmc p _ =>
    match advance p with
    | .error e => .error e
    | .ok p' => .ok p'.passed
  | .equality q =>
    match advance_eq q with
    | .error e => .error e
    | .ok q' =>
      if q'.passed then .ok true
      else if q'.failed then .ok false
      else .ok false

/-- `kevm_prove` (`utils.py` lines 74-150): run the body; the trailing
`except Exception: ... return False` turns any raised exception into
`False`. -/
def kevm_prove (advance : APRProof → Except String APRProof)
    (advance_eq : EqualityProof → Except String EqualityProof)
    (proof : KProof) : Bool :=
  match kevm_prove_body advance advance_eq proof with
  | .ok b => b
  | .error _ => false

/-! ## __main__.py: exec_prove -/

/-- The per-claim setup portion of `exec_prove` (`__main__.py` lines
247-259): apply `cterm_assume_defined`; then, only under
`if simplify_init:`, simplify the initial and target states and raise a
`ValueError` (embedded as `Except.error`) when either is `#Bottom`.
`cterm_assume_defined` and `cterm_simplify` are backend oracles. -/
def claim_setup (cterm_assume_defined cterm_simplify : CTerm → CTerm)
    (simplify_init : Bool) (init target : CTerm) : Except String (CTerm × CTerm) :=
  let new_init := cterm_assume_defined init
  if simplify_init then
    let i := cterm_simplify new_init
    let t := cterm_simplify target
    if is_bottom i then
      .error ("Simplifying initial node led to #Bottom, are you sure your LHS is defined?")
    else if is_bottom t then
      .error ("Simplifying target node led to #Bottom, are you sure your RHS is defined?")
    else .ok (i, t)
  else .ok (new_init, target)

/-- The backend operations `exec_prove` consumes, bundled. -/
structure BackendOracles where
  cterm_assume_defined : CTerm → CTerm
  cterm_simplify : CTerm → CTerm
  advance : APRProof → Except String APRProof
  advance_eq : EqualityProof → Except String EqualityProof

/-- A claim as extracted from a spec file: initial and target states. -/
structure Claim where
  init : CTerm
  target : CTerm

/-- The initial proof graph of a claim (`KCFG.from_claim` followed by
`APRProof(...)`): one pending init node, one target node, nothing stuck
or failing yet. -/
def initial_proof (i t : CTerm) : APRProof :=
  { pending := [⟨0, i⟩], stuck := [], failing := [], target := ⟨1, t⟩,
    path_constraints := fun _ => Pred.tt }

/-- One iteration of `exec_prove`'s claim loop: setup, then
`kevm_prove`.  `none` means an exception escaped the iteration — the
`ValueError` raised by `claim_setup` is caught nowhere in
`exec_prove`. -/
def prove_claim_iter (o : BackendOracles) (simplify_init : Bool) (c : Claim) : Option Bool :=
  match claim_setup o.cterm_assume_defined o.cterm_simplify simplify_init c.init c.target with
  | .error _ => none
  | .ok it => some (kevm_prove o.advance o.advance_eq (.apr (initial_proof it.1 it.2)))

/-- How a run of the `kevm` CLI process ends. -/
inductive RunResult where
  | exited : Nat → RunResult     -- `sys.exit(code)`, or falling off the end of the function
  | uncaughtError : RunResult    -- an exception propagated out of the command
deriving DecidableEq, Repr

/-- `exec_prove`'s claim loop (`__main__.py` lines 240-293).  In the
source, `failed = 0`, the `if result:` accounting and `sys.exit(failed)`
all sit INSIDE the `for claim in claims:` body (lines 287-293 at loop
indentation), so the loop always terminates the process on its first
iteration and the tail of the claim list is never reached.  The second
component counts the claims actually attempted. -/
def exec_prove_run (o : BackendOracles) (simplify_init : Bool) :
    List Claim → RunResult × Nat
  | [] => (.exited 0, 0)
  | c :: _ =>
    match prove_claim_iter o simplify_init c with
    | none => (.uncaughtError, 1)
    | some true => (.exited 0, 1)   -- failed = 0; sys.exit(0)
    | some false => (.exited 1, 1)  -- failed = 0 then failed += 1; sys.exit(1)

/-- `exec_foundry_prove`'s exit accounting (`__main__.py` lines
412-419): fold over the results mapping, counting failed proofs; the
count is the exit code and the loop sits after all proofs ran. -/
def exec_foundry_prove_exit (results : List (String × Bool)) : Nat :=
  results.foldl (fun failed r => if r.2 then failed else failed + 1) 0

/-- Backend oracles that leave states and proofs untouched (a legitimate
backend behavior: every state already simplified and carrying its
definedness conditions, and a prover that makes no progress). -/
def idOracles : BackendOracles :=
  { cterm_assume_defined := fun s => s
    cterm_simplify := fun s => s
    advance := fun p => Except.ok p
    advance_eq := fun q => Except.ok q }

/-- Backend oracles whose prover discharges every pending node (every
claim passes). -/
def provingOracles : BackendOracles :=
  { idOracles with advance := fun p => Except.ok { p with pending := [], stuck := [] } }

/-- C3: if the backend raises any exception while `kevm_prove` is
advancing the proof (the body evaluates to a raised exception), the
exception is caught and `kevm_prove` returns `false`; `kevm_prove` is a
total boolean function of the same arguments, so the exception never
propagates out of it to the claim batch. -/
theorem kevm_prove_catches_crash (advance : APRProof → Except String APRProof)
    (advance_eq : EqualityProof → Except String EqualityProof)
    (proof : KProof) (msg : String)
    (h : kevm_prove_body advance advance_eq proof = .error msg) :
    kevm_prove advance advance_eq proof = false := by
  simp [kevm_prove, h]

theorem kevm_prove_catches_crash_witness :
    kevm_prove (fun _ => .error ("backend crash")) (fun q => .ok q)
      (KProof.apr (initial_proof CTerm.bottom CTerm.bottom)) = false :=
  kevm_prove_catches_crash _ _ _ ("backend crash") rfl

/-- C5: for an APR or APR-BMC proof which the advancing oracle brings to
completion without crashing, `kevm_prove` returns `true` iff the
advanced proof has no stuck node and no pending (unexplored-frontier)
node; in particular it returns `false` — it cannot raise, being a total
boolean function — when a node is stuck, or when pending nodes remain
because the iteration budget ran out. -/
theorem kevm_prove_passed_iff (advance : APRProof → Except String APRProof)
    (advance_eq : EqualityProof → Except String EqualityProof)
    (p p' : APRProof) (d : Nat) (h : advance p = .ok p') :
    (kevm_prove advance advance_eq (.apr p) = true ↔
        p'.stuck = [] ∧ p'.pending = []) ∧
      (kevm_prove advance advance_eq (.aprbmc p d) = true ↔
        p'.stuck = [] ∧ p'.pending = []) := by
  simp [kevm_prove, kevm_prove_body, h, APRProof.passed, List.isEmpty_iff]

theorem kevm_prove_passed_iff_witness :
    kevm_prove provingOracles.advance provingOracles.advance_eq
      (KProof.apr (initial_proof (CTerm.config 0 []) (CTerm.config 1 []))) = true :=
  ((kevm_prove_passed_iff provingOracles.advance provingOracles.advance_eq
    (initial_proof (CTerm.config 0 []) (CTerm.config 1 [])) _ 0 rfl).1).mpr ⟨rfl, rfl⟩

/-- C4 counterexample: a claim whose initial state is the provably-empty
`#Bottom` state (unchanged by the definedness assumption) passes proof
setup with no error at all when `simplify_init` is off — the bottom
check of `exec_prove` runs only under `if simplify_init:`, so no
`UndefinedInitialStateError` (nor any error) is raised although the
initial state denotes no concrete states. -/
theorem claim_setup_misses_bottom :
    is_bottom ((fun s => s) CTerm.bottom) = true ∧
      claim_setup (fun s => s) (fun s => s) false CTerm.bottom (CTerm.config 0 []) =
        .ok (CTerm.bottom, CTerm.config 0 []) :=
  ⟨rfl, rfl⟩

/-- C4 amended: proof setup rejects a claim iff `simplify_init` is on
and the simplified initial state (after the definedness assumption) or
the simplified target state is `#Bottom`; the rejection is a plain
`ValueError` that `exec_prove` never catches, so it aborts the whole run
with only that claim attempted, rather than being fatal for that claim
only. -/
theorem claim_setup_bottom_iff (ad so : CTerm → CTerm) (si : Bool) (i t : CTerm)
    (o : BackendOracles) (c : Claim) (rest : List Claim) :
    ((∃ msg, claim_setup ad so si i t = .error msg) ↔
        si = true ∧ (is_bottom (so (ad i)) = true ∨ is_bottom (so t) = true)) ∧
      (prove_claim_iter o si c = none →
        exec_prove_run o si (c :: rest) = (RunResult.uncaughtError, 1)) := by
  constructor
  · simp only [claim_setup]
    cases si with
    | false => simp
    | true =>
      simp only [if_true]
      by_cases hI : is_bottom (so (ad i)) = true
      · simp [hI]
      · by_cases hT : is_bottom (so t) = true <;> simp [hI, hT]
  · intro h
    simp [exec_prove_run, h]

theorem claim_setup_bottom_iff_witness :
    exec_prove_run idOracles true
      [⟨CTerm.bottom, CTerm.config 0 []⟩, ⟨CTerm.config 0 [], CTerm.config 1 []⟩] =
      (RunResult.uncaughtError, 1) :=
  (claim_setup_bottom_iff (fun s => s) (fun s => s) true CTerm.bottom (CTerm.config 0 [])
    idOracles ⟨CTerm.bottom, CTerm.config 0 []⟩ [⟨CTerm.config 0 [], CTerm.config 1 []⟩]).2 rfl

/-- C1: concrete two-claim batches refute "an error local to a single
claim never aborts the batch; every remaining claim is still attempted":
a first claim whose initial state simplifies to `#Bottom` makes the run
abort with an uncaught `ValueError` after attempting only 1 of the 2
claims, and even a batch of two healthy passing claims stops after the
first — `sys.exit(failed)` sits inside the claim loop — attempting 1 of
2. -/
theorem exec_prove_aborts_batch :
    exec_prove_run idOracles true
        [⟨CTerm.bottom, CTerm.config 1 []⟩, ⟨CTerm.config 0 [], CTerm.config 1 []⟩] =
        (RunResult.uncaughtError, 1) ∧
      exec_prove_run provingOracles true
        [⟨CTerm.config 0 [], CTerm.config 1 []⟩, ⟨CTerm.config 0 [], CTerm.config 1 []⟩] =
        (RunResult.exited 0, 1) :=
  ⟨rfl, rfl⟩

/-- C2: `exec_foundry_prove` exits with the count of failed proofs (2
for a two-failure batch), but `exec_prove` does not: in a two-claim
batch where each claim would fail (`prove_claim_iter` returns
`some false` for it), the process exits with code 1, because `failed`
is reset and `sys.exit(failed)` executed inside the claim loop, after
the first claim. -/
theorem exec_prove_exit_code_bug :
    exec_foundry_prove_exit [("test1", false), ("test2", false)] = 2 ∧
      prove_claim_iter idOracles true ⟨CTerm.config 0 [], CTerm.config 1 []⟩ = some false ∧
      exec_prove_run idOracles true
        [⟨CTerm.config 0 [], CTerm.config 1 []⟩, ⟨CTerm.config 0 [], CTerm.config 1 []⟩] =
        (RunResult.exited 1, 1) :=
  ⟨rfl, rfl, rfl⟩

/-! ## Explorer simplify (spec §4.2) -/

/-- Modelled from the spec: the Explorer's `simplify`
(`KCFGExplore.cterm_simplify`) is backend-side code in the external pyk
library, not under this repository's sources; spec §4.2 describes it as
"backend-side constraint simplification ... up to syntactic normal
form".  Modelled as normalization of the ordered constraint list to a
syntactic normal form: trivially-true constraints dropped, duplicates
removed, first occurrences kept in order. -/
def cterm_simplify_model : CTerm → CTerm
  | .bottom => .bottom
  | .config cfg cs => .config cfg ((cs.filter fun p => p != Pred.tt).dedup)

/-- C7: the Explorer's simplify operation is idempotent:
`simplify(simplify(s)) == simplify(s)` for every symbolic state `s`. -/
theorem cterm_simplify_model_idem (s : CTerm) :
    cterm_simplify_model (cterm_simplify_model s) = cterm_simplify_model s := by
  cases s with
  | bottom => rfl
  | config cfg cs =>
    simp only [cterm_simplify_model, CTerm.config.injEq, true_and]
    have h1 : ((cs.filter fun p => p != Pred.tt).dedup.filter fun p => p != Pred.tt) =
        (cs.filter fun p => p != Pred.tt).dedup := by
      apply List.filter_eq_self.mpr
      intro a ha
      have ha' : a ∈ cs.filter fun p => p != Pred.tt := List.mem_dedup.mp ha
      exact (List.mem_filter.mp ha').2
    rw [h1, List.dedup_idem]

/-! ## utils.py: KDefinition__expand_macros -/

mutual
/-- Embedded pyk `KInner` terms: applications (a label and an argument
list), variables, tokens. -/
inductive KInner where
  | kapply : Nat → KInnerArgs → KInner
  | kvar : Nat → KInner
  | ktoken : Nat → KInner
deriving DecidableEq, Repr
/-- The argument list of a `KApply` (a list of `KInner`, spelled out as
a mutual inductive). -/
inductive KInnerArgs where
  | nil : KInnerArgs
  | cons : KInner → KInnerArgs → KInnerArgs
deriving DecidableEq, Repr
end

/-- The two pieces of the external `KDefinition` that
`KDefinition__expand_macros` consults: whether a label's production
carries a macro/alias attribute, and, for each macro rule `r`, the
total function `r.body.apply_top` (pyk returns the input term unchanged
when the rule does not match). -/
structure KDefinition where
  hasMacroAtt : Nat → Bool
  macroRules : List (KInner → KInner)

/-- The `for r in defn.macro_rules:` loop of `_expand_macros`: apply the
first rule that changes the term, else return the term. -/
def applyFirstRule : List (KInner → KInner) → KInner → KInner
  | [], t => t
  | r :: rs, t =>
    let t' := r t
    if t' = t then applyFirstRule rs t else t'

/-- The inner `_expand_macros` of `KDefinition__expand_macros`: on a
`KApply` whose label's production has a macro/alias attribute, apply the
first matching macro rule; all other terms pass through. -/
def expand_macros_step (defn : KDefinition) : KInner → KInner
  | .kapply label args =>
    if defn.hasMacroAtt label then applyFirstRule defn.macroRules (.kapply label args)
    else .kapply label args
  | .kvar n => .kvar n
  | .ktoken s => .ktoken s

mutual
/-- pyk `bottom_up(f, term)`: rebuild the term from the leaves, applying
`f` at every node on the way up. -/
def bottom_up (f : KInner → KInner) : KInner → KInner
  | .kapply l args => f (.kapply l (bottom_up_args f args))
  | .kvar n => f (.kvar n)
  | .ktoken s => f (.ktoken s)
/-- `bottom_up` mapped over an argument list. -/
def bottom_up_args (f : KInner → KInner) : KInnerArgs → KInnerArgs
  | .nil => .nil
  | .cons a as => .cons (bottom_up f a) (bottom_up_args f as)
end

/-- One iteration of the `while term != old_term:` loop of
`KDefinition__expand_macros`: a bottom-up pass of `_expand_macros`. -/
def expand_macros_pass (defn : KDefinition) (t : KInner) : KInner :=
  bottom_up (expand_macros_step defn) t

/-- `KDefinition__expand_macros` (`utils.py` lines 251-269), its
`while term != old_term:` loop made total with explicit fuel: repeat
bottom-up passes until one leaves the term unchanged (the loop's exit
condition) or the fuel runs out.  The source has no fuel: it loops until
a pass changes nothing, however long that takes. -/
def KDefinition__expand_macros : KDefinition → Nat → KInner → KInner
  | _, 0, t => t
  | defn, fuel + 1, t =>
    let t' := expand_macros_pass defn t
    if t' = t then t else KDefinition__expand_macros defn fuel t'

/-- A definition whose single macro rule swaps the nullary applications
of labels 0 and 1: each expansion pass flips the term, so
expand-until-unchanged never converges. -/
def cyclicDefn : KDefinition where
  hasMacroAtt := fun _ => true
  macroRules :=
    [fun t =>
      if t = KInner.kapply 0 KInnerArgs.nil then KInner.kapply 1 KInnerArgs.nil
      else if t = KInner.kapply 1 KInnerArgs.nil then KInner.kapply 0 KInnerArgs.nil
      else t]

theorem cyclic_pass_swap :
    expand_macros_pass cyclicDefn (KInner.kapply 0 KInnerArgs.nil) = KInner.kapply 1 KInnerArgs.nil ∧
      expand_macros_pass cyclicDefn (KInner.kapply 1 KInnerArgs.nil) = KInner.kapply 0 KInnerArgs.nil := by
  constructor <;>
    simp [expand_macros_pass, bottom_up, bottom_up_args, expand_macros_step, cyclicDefn,
      applyFirstRule]

theorem cyclic_pass_iterate (n : Nat) :
    (expand_macros_pass cyclicDefn)^[n] (KInner.kapply 0 KInnerArgs.nil) =
      (if n % 2 = 0 then KInner.kapply 0 KInnerArgs.nil else KInner.kapply 1 KInnerArgs.nil) := by
  induction n with
  | zero => simp
  | succ n ih =>
    rw [Function.iterate_succ_apply', ih]
    rcases Nat.even_or_odd n with he | ho
    · have h0 : n % 2 = 0 := Nat.even_iff.mp he
      have h1 : (n + 1) % 2 = 1 := by omega
      simp [h0, h1, cyclic_pass_swap.1]
    · have h0 : n % 2 = 1 := Nat.odd_iff.mp ho
      have h1 : (n + 1) % 2 = 0 := by omega
      simp [h0, h1, cyclic_pass_swap.2]

/-- C8 counterexample: for `cyclicDefn` and the input term
`kapply 0 []`, no number of expansion passes ever reaches a fixpoint:
the expand-until-unchanged loop of `KDefinition__expand_macros` never
meets its exit condition, so macro expansion does not terminate for
every definition and input term. -/
theorem expand_macros_diverges :
    ¬ ∃ n : Nat, (expand_macros_pass cyclicDefn)^[n + 1] (KInner.kapply 0 KInnerArgs.nil) =
        (expand_macros_pass cyclicDefn)^[n] (KInner.kapply 0 KInnerArgs.nil) := by
  rintro ⟨n, hn⟩
  rw [cyclic_pass_iterate, cyclic_pass_iterate] at hn
  rcases Nat.even_or_odd n with he | ho
  · have h0 : n % 2 = 0 := Nat.even_iff.mp he
    have h1 : (n + 1) % 2 = 1 := by omega
    simp [h0, h1] at hn
  · have h0 : n % 2 = 1 := Nat.odd_iff.mp ho
    have h1 : (n + 1) % 2 = 0 := by omega
    simp [h0, h1] at hn

theorem expand_macros_loop_cases (defn : KDefinition) (n : Nat) (t : KInner) :
    expand_macros_pass defn (KDefinition__expand_macros defn n t) =
        KDefinition__expand_macros defn n t ∨
      KDefinition__expand_macros defn n t = (expand_macros_pass defn)^[n] t := by
  induction n generalizing t with
  | zero => exact Or.inr rfl
  | succ n ih =>
    simp only [KDefinition__expand_macros]
    by_cases h : expand_macros_pass defn t = t
    · simp only [if_pos h]
      exact Or.inl h
    · simp only [if_neg h]
      rcases ih (expand_macros_pass defn t) with hfix | heq
      · exact Or.inl hfix
      · right
        rw [heq, Function.iterate_succ_apply]

/-- C8 amended: the expand-until-unchanged loop of
`KDefinition__expand_macros` terminates exactly when repeated bottom-up
expansion passes reach a fixpoint — given a definition and a term for
which `n` passes suffice, the loop run with that much fuel returns a
fixpoint of the pass; the source bounds neither the iteration count (a
definition with cyclic macro rules loops forever) nor the call-stack
use (it relies on `sys.setrecursionlimit(15000000)` for the recursive
bottom-up pass). -/
theorem expand_macros_terminates_of_fix (defn : KDefinition) (t : KInner) (n : Nat)
    (h : expand_macros_pass defn ((expand_macros_pass defn)^[n] t) =
      (expand_macros_pass defn)^[n] t) :
    expand_macros_pass defn (KDefinition__expand_macros defn n t) =
      KDefinition__expand_macros defn n t := by
  rcases expand_macros_loop_cases defn n t with hfix | heq
  · exact hfix
  · rw [heq]
    exact h

/-- A definition with no macro labels and no rules: every pass is the
identity. -/
def inertDefn : KDefinition where
  hasMacroAtt := fun _ => false
  macroRules := []

theorem expand_macros_terminates_of_fix_witness :
    expand_macros_pass inertDefn (KDefinition__expand_macros inertDefn 0 (KInner.kvar 0)) =
      KDefinition__expand_macros inertDefn 0 (KInner.kvar 0) :=
  expand_macros_terminates_of_fix inertDefn (KInner.kvar 0) 0
    (by simp [expand_macros_pass, bottom_up, expand_macros_step])

/-! ## utils.py: print_failure_info / print_model -/

/-- The backend operations `print_failure_info` consumes
(`KCFGExplore.cterm_simplify`, `implication_failure_reason`,
`kprint.pretty_print`, `cterm_get_model`), as oracles.  A model is a
substitution: variable names bound to terms. -/
structure FailureOracles where
  cterm_simplify : CTerm → CTerm
  implication_failure_reason : CTerm → CTerm → String
  pretty_print : Pred → String
  cterm_get_model : CTerm → Option (List (String × Pred))

/-- `print_model` (`utils.py` lines 204-215): when the backend produces
a substitution, a `Model:` header plus one `var = term` line per
binding; otherwise a failure note. -/
def print_model (node : Node) (ex : FailureOracles) : List String :=
  match ex.cterm_get_model node.cterm with
  | some subst =>
    "  Model:" :: subst.map fun vt => "    " ++ vt.1 ++ (" = " ++ ex.pretty_print vt.2)
  | none => ["  Failed to generate a model."]

/-- The two lines `print_failure_info` appends per pending node. -/
def pending_node_lines (node : Node) : List String :=
  ["", "ID: " ++ (toString node.id ++ ":")]

/-- The block `print_failure_info` appends per failing node: its id, the
implication-failure reason of the simplified node against the simplified
target (one indented line per reason line), its path condition, and —
only when counterexample output was requested — the model block. -/
def failing_node_lines (target : Node) (pcs : Nat → Pred) (ex : FailureOracles)
    (counterexample_info : Bool) (node : Node) : List String :=
  ["", "  Node id: " ++ toString node.id, "  Failure reason:"]
    ++ ((ex.implication_failure_reason (ex.cterm_simplify node.cterm)
          (ex.cterm_simplify target.cterm)).splitOn ("\n")).map (fun line => "    " ++ line)
    ++ ["  Path condition:", "    " ++ ex.pretty_print (pcs node.id)]
    ++ (if counterexample_info then print_model node ex else [])

/-- `print_failure_info` (`utils.py` lines 153-197) for an APR or
APR-BMC proof: the pending/failing count header, the pending-node list,
the failing-node blocks, and the support footer. -/
def print_failure_info (proof : APRProof) (ex : FailureOracles)
    (counterexample_info : Bool) : List String :=
  (toString (proof.pending.length + proof.failing.length) ++ " Failure nodes. (" ++
      toString proof.pending.length ++ " pending and " ++
      toString proof.failing.length ++ " failing)")
    :: ((if proof.pending.length > 0 then
          "" :: ("Pending nodes:" :: proof.pending.flatMap pending_node_lines)
        else [])
      ++ (if proof.failing.length > 0 then
          "" :: ("Failing nodes:" ::
            proof.failing.flatMap
              (failing_node_lines proof.target proof.path_constraints ex counterexample_info))
        else [])
      ++ ["",
          "Join the Runtime Verification Discord server for support: https://discord.com/invite/CurfmXNtbN"])

theorem str_append_ne_of_not_suffix (x suf t : String) (h : ¬ (suf.data <:+ t.data)) :
    x ++ suf ≠ t := by
  intro he
  apply h
  rw [← he, String.data_append]
  exact ⟨x.data, rfl⟩

theorem str_append_ne_of_not_pre (pre x t : String) (h : ¬ (pre.data <+: t.data)) :
    pre ++ x ≠ t := by
  intro he
  apply h
  rw [← he, String.data_append]
  exact ⟨x.data, rfl⟩

theorem mem_pending_block (p : APRProof) (ex : FailureOracles) (ci : Bool) (node : Node)
    (hn : node ∈ p.pending) (x : String) (hx : x ∈ pending_node_lines node) :
    x ∈ print_failure_info p ex ci := by
  have hp : p.pending.length > 0 := List.length_pos_of_mem hn
  have h1 : x ∈ p.pending.flatMap pending_node_lines := List.mem_flatMap.mpr ⟨node, hn, hx⟩
  simp only [print_failure_info]
  rw [if_pos hp]
  exact List.mem_cons_of_mem _ (List.mem_append_left _ (List.mem_append_left _
    (List.mem_cons_of_mem _ (List.mem_cons_of_mem _ h1))))

theorem mem_failing_block (p : APRProof) (ex : FailureOracles) (ci : Bool) (node : Node)
    (hn : node ∈ p.failing) (x : String)
    (hx : x ∈ failing_node_lines p.target p.path_constraints ex ci node) :
    x ∈ print_failure_info p ex ci := by
  have hf : p.failing.length > 0 := List.length_pos_of_mem hn
  have h1 : x ∈ p.failing.flatMap (failing_node_lines p.target p.path_constraints ex ci) :=
    List.mem_flatMap.mpr ⟨node, hn, hx⟩
  simp only [print_failure_info]
  rw [if_pos hf]
  exact List.mem_cons_of_mem _ (List.mem_append_left _ (List.mem_append_right _
    (List.mem_cons_of_mem _ (List.mem_cons_of_mem _ h1))))

/-- C6: for an APR or APR-BMC proof, `print_failure_info` returns a
structured report: the line giving the total count of pending and
failing nodes, an id line for every pending node and, for every failing
node, its id line, every line of its implication-failure reason against
the target, and its path condition; the model block of a failing node is
part of the report when counterexample output was requested, and no
model line appears when it was not. -/
theorem print_failure_info_spec (p : APRProof) (ex : FailureOracles) (ci : Bool) :
    (toString (p.pending.length + p.failing.length) ++ " Failure nodes. (" ++
        toString p.pending.length ++ " pending and " ++
        toString p.failing.length ++ " failing)") ∈ print_failure_info p ex ci ∧
      (∀ node ∈ p.pending,
        ("ID: " ++ (toString node.id ++ ":")) ∈ print_failure_info p ex ci) ∧
      (∀ node ∈ p.failing,
        ("  Node id: " ++ toString node.id) ∈ print_failure_info p ex ci ∧
        (∀ line ∈ (ex.implication_failure_reason (ex.cterm_simplify node.cterm)
              (ex.cterm_simplify p.target.cterm)).splitOn ("\n"),
          ("    " ++ line) ∈ print_failure_info p ex ci) ∧
        ("    " ++ ex.pretty_print (p.path_constraints node.id)) ∈ print_failure_info p ex ci ∧
        (ci = true → ∀ line ∈ print_model node ex, line ∈ print_failure_info p ex ci)) ∧
      (ci = false → "  Model:" ∉ print_failure_info p ex ci) := by
  refine ⟨?_, ?_, ?_, ?_⟩
  · simp only [print_failure_info]
    exact List.mem_cons_self _ _
  · intro node hn
    exact mem_pending_block p ex ci node hn _ (by simp [pending_node_lines])
  · intro node hn
    refine ⟨?_, ?_, ?_, ?_⟩
    · exact mem_failing_block p ex ci node hn _ (by simp [failing_node_lines])
    · intro line hline
      refine mem_failing_block p ex ci node hn _ ?_
      simp only [failing_node_lines, List.mem_append, List.mem_cons]
      exact Or.inl (Or.inl (Or.inr (List.mem_map_of_mem _ hline)))
    · exact mem_failing_block p ex ci node hn _ (by simp [failing_node_lines])
    · intro hci line hl
      refine mem_failing_block p ex ci node hn _ ?_
      simp only [failing_node_lines, hci, if_true, List.mem_append]
      exact Or.inr hl
  · intro hci hmem
    subst hci
    have hhdr : ∀ x : String, "  Model:" ≠ x ++ " failing)" :=
      fun x => Ne.symm (str_append_ne_of_not_suffix x (" failing)") ("  Model:") (by decide))
    have hid : ∀ x : String, "  Model:" ≠ "ID: " ++ x :=
      fun x => Ne.symm (str_append_ne_of_not_pre ("ID: ") x ("  Model:") (by decide))
    have hnode : ∀ x : String, "  Model:" ≠ "  Node id: " ++ x :=
      fun x => Ne.symm (str_append_ne_of_not_pre ("  Node id: ") x ("  Model:") (by decide))
    have hind : ∀ x : String, ("    " ++ x) ≠ "  Model:" :=
      fun x => str_append_ne_of_not_pre ("    ") x ("  Model:") (by decide)
    have hind' : ∀ x : String, "  Model:" ≠ ("    " ++ x) := fun x => Ne.symm (hind x)
    have h1 : "  Model:" ≠ "" := by decide
    have h2 : "  Model:" ≠ "Pending nodes:" := by decide
    have h3 : "  Model:" ≠ "Failing nodes:" := by decide
    have h4 : "  Model:" ≠ "  Failure reason:" := by decide
    have h5 : "  Model:" ≠ "  Path condition:" := by decide
    have h6 : "  Model:" ≠
        "Join the Runtime Verification Discord server for support: https://discord.com/invite/CurfmXNtbN" := by
      decide
    by_cases hp : p.pending.length > 0 <;> by_cases hf : p.failing.length > 0 <;>
      simp [print_failure_info, hp, hf, pending_node_lines, failing_node_lines,
        List.mem_flatMap, hhdr, hid, hnode, hind, hind', h1, h2, h3, h4, h5, h6] at hmem

/-- A one-pending, one-failing proof used to instantiate the failure
reporter. -/
def reporter_proof_w : APRProof :=
  { pending := [⟨2, CTerm.config 0 []⟩], stuck := [], failing := [⟨3, CTerm.config 1 []⟩],
    target := ⟨1, CTerm.config 2 []⟩, path_constraints := fun _ => Pred.tt }

/-- Concrete failure-reporter oracles: identity simplification, a fixed
reason text, and no obtainable model. -/
def reporter_oracles_w : FailureOracles :=
  { cterm_simplify := fun s => s
    implication_failure_reason := fun _ _ => "#Top"
    pretty_print := fun _ => "true"
    cterm_get_model := fun _ => none }

theorem print_failure_info_spec_witness :
    ("ID: " ++ (toString 2 ++ ":")) ∈ print_failure_info reporter_proof_w reporter_oracles_w false ∧
      "  Model:" ∉ print_failure_info reporter_proof_w reporter_oracles_w false :=
  ⟨(print_failure_info_spec reporter_proof_w reporter_oracles_w false).2.1
      ⟨2, CTerm.config 0 []⟩ (by decide),
    (print_failure_info_spec reporter_proof_w reporter_oracles_w false).2.2.2 rfl⟩

/-- C9: `filter_gst_keys` returns a mapping with exactly the same test
names in order, and each test's field mapping consists of exactly the
original key-value pairs whose key is not in `GST_DISCARD_KEYS`, in
their original order with their original values (a sublist of the
original fields, containing a pair iff the original contained it with a
non-discarded key). -/
theorem filter_gst_keys_spec {V : Type} (gst_data : List (String × List (String × V))) :
    (filter_gst_keys gst_data).map Prod.fst = gst_data.map Prod.fst ∧
      List.Forall₂
        (fun td td' : String × List (String × V) =>
          td'.1 = td.1 ∧ td'.2.Sublist td.2 ∧
            ∀ k v, ((k, v) ∈ td'.2 ↔ (k, v) ∈ td.2 ∧ k ∉ GST_DISCARD_KEYS))
        gst_data (filter_gst_keys gst_data) := by
  constructor
  · simp [filter_gst_keys]
  · rw [filter_gst_keys, List.forall₂_map_right_iff]
    rw [List.forall₂_same]
    intro td _
    refine ⟨rfl, List.filter_sublist _, ?_⟩
    intro k v
    simp [List.mem_filter]

/-- C10: `byte_offset_to_lines` returns `(text_lines, line_start,
line_end)` with `line_start ≤ line_end ≤ length lines` (both indices
are naturals, hence `0 ≤ line_start`), and `text_lines` is exactly the
contiguous slice of the input from `line_start` (inclusive) to
`line_end` (exclusive). -/
theorem byte_offset_to_lines_spec (lines : List String) (byte_start byte_width : Int) :
    (byte_offset_to_lines lines byte_start byte_width).2.1 ≤
        (byte_offset_to_lines lines byte_start byte_width).2.2 ∧
      (byte_offset_to_lines lines byte_start byte_width).2.2 ≤ lines.length ∧
      (byte_offset_to_lines lines byte_start byte_width).1 =
        (lines.drop (byte_offset_to_lines lines byte_start byte_width).2.1).take
          ((byte_offset_to_lines lines byte_start byte_width).2.2 -
            (byte_offset_to_lines lines byte_start byte_width).2.1) := by
  have hfl := botlFirstLoop_le lines byte_start 0
  have hsl := botlSecondLoop_spec (lines.drop (botlFirstLoop lines byte_start 0).2)
    (botlFirstLoop lines byte_start 0).1 byte_width (botlFirstLoop lines byte_start 0).2
  simp only [byte_offset_to_lines]
  refine ⟨hsl.1, ?_, hsl.2.2⟩
  have hdrop : (lines.drop (botlFirstLoop lines byte_start 0).2).length =
      lines.length - (botlFirstLoop lines byte_start 0).2 := by
    simp [List.length_drop]
  omega

end KevmPyk
